import Mathlib

/-!
Verification of the tunnel subsystem of `tum-taskforce/onion`
(`src/onion/tunnel.rs`), as a shallow embedding in Lean 4.

Modelling conventions:
  * `SessionKey`, `Peer`, `TunnelId` are abstracted to `Nat`; only identity
    matters for the properties below.
  * Socket interaction is abstracted: every operation that performs a network
    exchange takes the outcome of that exchange as an explicit argument
    (`Except OnionSocketError _`), so the pure state transformation performed
    by the Rust code is what is embedded.
  * Stateful methods on `Tunnel` (`&mut self`) become functions returning a
    pair of the Rust return value and the updated tunnel.
-/

namespace Onion

abbrev SessionKey := Nat

abbrev TunnelId := Nat

abbrev Peer := Nat

abbrev Payload := List Nat

/-- Modelled from the spec: the error kinds of `OnionSocket` (`socket.rs` is
not part of the sources). `tunnel.rs` names only the `Peer` variant (remote
protocol violation); the spec adds socket I/O failure and handshake timeout
as the remaining kinds (§4.3, §7). -/
inductive OnionSocketError
  | Peer
  | Io
  | Timeout
deriving DecidableEq

/-- `enum TunnelError` from tunnel.rs: `Incomplete` (consistent state kept)
or `Broken(Option<OnionSocketError>)` (tunnel unusable). -/
inductive TunnelError
  | Incomplete
  | Broken (e : Option OnionSocketError)
deriving DecidableEq

/-- Discriminator for the `TunnelError::Broken` variant. -/
def TunnelError.isBroken : TunnelError → Bool
  | .Broken _ => true
  | .Incomplete => false

/-- `impl From<OnionSocketError> for TunnelError` (tunnel.rs lines 41-48):
`Peer` maps to `Incomplete`, every other socket error `e` maps to
`Broken(Some(e))`. -/
def tunnelErrorOfSocketError : OnionSocketError → TunnelError
  | .Peer => .Incomplete
  | e => .Broken (some e)

/-- `struct Tunnel` (originator view): tunnel id and the session-key list
(`out_circuit` holds only socket state and the circuit id, which the
properties below do not depend on, so it is omitted). -/
structure Tunnel where
  id : TunnelId
  session_keys : List SessionKey
deriving DecidableEq

/-- `Tunnel::init`: the circuit handshake with the first hop either fails
(connect / handshake / signature verification / key derivation; argument
`handshake = none`) or yields the derived secret, which becomes the sole
element of `session_keys`. -/
def Tunnel.init (id : TunnelId) (handshake : Option SessionKey) : Option Tunnel :=
  handshake.map fun secret => { id := id, session_keys := [secret] }

/-- `Tunnel::truncate(n)`: reject with `Incomplete` when `n >= session_keys.len()`,
otherwise run the `TRUNCATE` exchange (outcome `sock`); a socket error is
converted via `From<OnionSocketError>`; on success the first `n` entries of
`session_keys` are removed (`for _ in 0..n { session_keys.remove(0) }`). -/
def Tunnel.truncate (t : Tunnel) (n : Nat) (sock : Except OnionSocketError Unit) :
    Except TunnelError Unit × Tunnel :=
  if t.session_keys.length ≤ n then
    (.error .Incomplete, t)
  else
    match sock with
    | .error e => (.error (tunnelErrorOfSocketError e), t)
    | .ok _ => (.ok (), { t with session_keys := t.session_keys.drop n })

/-- `Tunnel::extend`: the layered `EXTEND` exchange (outcome `exchange`)
either fails at the socket level, or returns a peer key from which
`derive_secret` may fail (`.ok none`) or succeed (`.ok (some secret)`).
On success the new secret is inserted at index 0 of `session_keys`.
On derivation failure `truncate(0)` rolls back the just-added hop
(its socket outcome is `truncSock`) and `extend` returns `Incomplete`;
if that truncate itself fails, `extend` returns `Broken(None)`. -/
def Tunnel.extend (t : Tunnel) (exchange : Except OnionSocketError (Option SessionKey))
    (truncSock : Except OnionSocketError Unit) : Except TunnelError Unit × Tunnel :=
  match exchange with
  | .error e => (.error (tunnelErrorOfSocketError e), t)
  | .ok none =>
    match t.truncate 0 truncSock with
    | (.error _, t') => (.error (.Broken none), t')
    | (.ok _, t') => (.error .Incomplete, t')
  | .ok (some secret) => (.ok (), { t with session_keys := secret :: t.session_keys })

/-!
Ghost model of the physical path. A `SimTunnel` pairs the originator state
(`Tunnel`, embedded from the source above) with the ground-truth list of
physical hops in wire order — first hop first, terminal hop last — each with
the session key the originator shares with it. The ghost list is maintained
according to the wire protocol (§4.4/§4.5 of the spec): `CREATE` makes the
first hop, a successful `EXTEND` appends a new terminal hop, a successful
`TRUNCATE n` removes the last `n` hops. A derivation failure inside `extend`
rolls the freshly created hop back via `truncate(0)`, so the ghost list is
unchanged on that path; a `Broken` tunnel is torn down and never reused.
-/

structure SimTunnel where
  tunnel : Tunnel
  hops : List (Peer × SessionKey)
deriving DecidableEq

/-- `Tunnel::init` together with the ghost path: on success the path consists
of the single first hop `peer` with the derived key. -/
def simInit (id : TunnelId) (peer : Peer) (handshake : Option SessionKey) :
    Option SimTunnel :=
  match handshake with
  | none => none
  | some secret =>
    some { tunnel := { id := id, session_keys := [secret] }, hops := [(peer, secret)] }

/-- `Tunnel::extend` together with the ghost path: a fully successful
exchange appends `peer` (with the new key) as the new terminal hop; on every
failure path the physical path of the consistent tunnel is unchanged. -/
def simExtend (st : SimTunnel) (peer : Peer)
    (exchange : Except OnionSocketError (Option SessionKey))
    (truncSock : Except OnionSocketError Unit) :
    Except TunnelError Unit × SimTunnel :=
  match exchange with
  | .ok (some secret) =>
    ((st.tunnel.extend exchange truncSock).1,
      { tunnel := (st.tunnel.extend exchange truncSock).2,
        hops := st.hops ++ [(peer, secret)] })
  | _ =>
    ((st.tunnel.extend exchange truncSock).1,
      { tunnel := (st.tunnel.extend exchange truncSock).2, hops := st.hops })

/-- `Tunnel::truncate` together with the ghost path: a successful truncate by
`n` removes the last `n` physical hops. -/
def simTruncate (st : SimTunnel) (n : Nat) (sock : Except OnionSocketError Unit) :
    Except TunnelError Unit × SimTunnel :=
  match st.tunnel.truncate n sock with
  | (.ok u, t') => (.ok u, { tunnel := t', hops := (st.hops.reverse.drop n).reverse })
  | (.error e, t') => (.error e, { tunnel := t', hops := st.hops })

/-- The originator's key list as the code maintains it, compared with the
physical path: `session_keys` lists the hop keys innermost-first, i.e. it is
the reverse of the path-ordered key list. -/
def keysMatchPath (st : SimTunnel) : Prop :=
  st.tunnel.session_keys = (st.hops.map Prod.snd).reverse

/-- Modelled from the spec: the inner tunnel message tags of §4.2
(`protocol.rs` is not part of the sources; `tunnel.rs` matches on the
`Data` and `End` variants and has a catch-all for the rest). -/
inductive TunnelRequest
  | Extend (peer : Peer)
  | Truncate
  | Begin (tunnel_id : TunnelId)
  | Data (tunnel_id : TunnelId) (data : Payload)
  | End (tunnel_id : TunnelId)
deriving DecidableEq

/-- An inbound `OPAQUE` frame as the originator sees it: the stack of onion
layers still on it (outermost first, one added by each hop on the way back)
and the inner plaintext, which parses to a `TunnelRequest` only when the
digest verifies (`none` models an undecodable payload / broken digest). -/
structure OpaqueMsg where
  layers : List SessionKey
  inner : Option TunnelRequest
deriving DecidableEq

/-- Layered decryption of an inbound frame followed by
`TunnelRequest::read_with_digest_from`: the keys are applied in the given
iteration order; the digest verifies (and the inner message is recovered)
exactly when that order matches the layer stack. -/
def decryptParse (keyOrder : List SessionKey) (msg : OpaqueMsg) :
    Option TunnelRequest :=
  if keyOrder = msg.layers then msg.inner else none

/-- The key iteration order `TunnelHandler::handle_tunnel_message` passes to
`msg.decrypt`: `self.tunnel.session_keys.iter().rev()`. -/
def handlerDecryptKeys (t : Tunnel) : List SessionKey :=
  t.session_keys.reverse

/-- Observable outcome of `TunnelHandler::handle_tunnel_message`.
`emitEnd`/`teardownTunnel` are the outcomes §4.7 of the spec requires for an
inner `END` and for an invalid message; the code reaches `todo!()` instead,
which is recorded as `panicTodoEnd`/`panicTodoInvalid`. -/
inductive HandlerEffect
  | emitData (tunnel_id : TunnelId) (data : Payload)
  | emitEnd (tunnel_id : TunnelId)
  | teardownTunnel
  | socketErr
  | panicTodoEnd
  | panicTodoInvalid
deriving DecidableEq

/-- `TunnelHandler::handle_tunnel_message`: propagate a socket error, decrypt
with the session keys in reverse list order, then dispatch on the inner
message: `Data` emits `Event::Data`; `End` hits `todo!()`; anything else
(including a failed digest) hits `todo!()`. -/
def handle_tunnel_message (t : Tunnel) (msg : Except OnionSocketError OpaqueMsg) :
    HandlerEffect :=
  match msg with
  | .error _ => .socketErr
  | .ok m =>
    match decryptParse (handlerDecryptKeys t) m with
    | some (.Data tunnel_id data) => .emitData tunnel_id data
    | some (.End _) => .panicTodoEnd
    | _ => .panicTodoInvalid

/-- `enum State` of `TunnelHandler`. -/
inductive State
  | Building
  | Ready
  | Destroying
  | Destroyed
deriving DecidableEq

/-- `enum Request` (application requests to a `TunnelHandler`). -/
inductive Request
  | Data (data : Payload)
  | Switchover
  | Destroy
deriving DecidableEq

/-- Position of a state in the lifecycle order
Building → Ready → Destroying → Destroyed. -/
def State.rank : State → Nat
  | .Building => 0
  | .Ready => 1
  | .Destroying => 2
  | .Destroyed => 3

/-- The state transition performed by `TunnelHandler::handle_request` for
each `(request, state)` pair; `none` is the
`Err(anyhow!("Illegal TunnelHandler state"))` catch-all, which leaves the
state unchanged and aborts the handler loop. -/
def stepRequest : Request → State → Option State
  | .Data _, .Ready => some .Ready
  | .Switchover, .Building => some .Ready
  | .Switchover, .Ready => some .Ready
  | .Switchover, .Destroying => some .Destroyed
  | .Destroy, .Ready => some .Destroying
  | _, _ => none

/-- What one iteration of the `TunnelHandler::handle` loop does in each
state: in `Building` it only receives requests, in `Ready`/`Destroying` it
selects between an inbound `OPAQUE` frame and a request, and in `Destroyed`
it returns, terminating the loop. -/
inductive LoopAction
  | recvRequestOnly
  | recvRequestOrMessage
  | halt
deriving DecidableEq

def handleDispatch : State → LoopAction
  | .Building => .recvRequestOnly
  | .Ready => .recvRequestOrMessage
  | .Destroying => .recvRequestOrMessage
  | .Destroyed => .halt

/-- `const MAX_PEER_FAILURES: usize = 10`. -/
def MAX_PEER_FAILURES : Nat := 10

/-- `struct TunnelBuilder` (the `peer_provider` channel and the RNG are
abstracted into the build environment below). -/
structure TunnelBuilder where
  tunnel_id : TunnelId
  dest : Peer
  n_hops : Nat
deriving DecidableEq

/-- Environment of one `TunnelBuilder::build` run, indexed by the loop
iteration: the peer the `peer_provider` yields, and the outcomes of the
network exchanges of an `init`, an `extend` and a rollback truncate
performed in that iteration. -/
structure BuildEnv where
  peers : Nat → Peer
  initHs : Nat → Option SessionKey
  extendHs : Nat → Except OnionSocketError (Option SessionKey)
  truncHs : Nat → Except OnionSocketError Unit

/-- Externally visible actions of a build run: a `Tunnel::init` handshake
with a peer, a `Tunnel::extend` handshake with a peer, or a
`tunnel.teardown()`. -/
inductive BuildAction
  | attemptInit (peer : Peer)
  | attemptExtend (peer : Peer)
  | teardown
deriving DecidableEq

def BuildAction.isHandshake : BuildAction → Bool
  | .attemptInit _ => true
  | .attemptExtend _ => true
  | .teardown => false

/-- Whether an `extend` attempt came back `Err(TunnelError::Broken(_))`
(the arm of `build` that tears the partial tunnel down and discards it). -/
def extendResultBroken : Except TunnelError Unit → Bool
  | .error e => e.isBroken
  | .ok _ => false

/-- Result of a build run: the Rust return value
(`Err(anyhow!("failed to build tunnel"))` on budget exhaustion is
`.error ()`), the partial tunnel still alive when `build` returns (it is
merely dropped, never torn down, on the error path), and the trace of
actions performed. -/
structure BuildOutcome where
  result : Except Unit SimTunnel
  leftover : Option SimTunnel
  trace : List BuildAction

/-- The loop body of `TunnelBuilder::build` (tunnel.rs lines 266-299):
`fuel` counts the remaining iterations of `for i in 0..MAX_PEER_FAILURES`,
`i` is the current iteration index into the environment, `cur` the current
partial tunnel. With no tunnel yet: `init(dest)` when `n_hops == 0`, else
`init(sampled peer)`; a failed init leaves `cur = none` (`.ok()`).
With a partial tunnel of `len() - 1 < n_hops`: `extend(sampled peer)`;
`Broken` tears the tunnel down and discards it, `Incomplete` keeps it.
Otherwise the tunnel is returned as is. -/
def buildGo (b : TunnelBuilder) (env : BuildEnv) :
    Nat → Nat → Option SimTunnel → BuildOutcome
  | 0, _, cur => { result := .error (), leftover := cur, trace := [] }
  | fuel + 1, i, none =>
    let peer := if b.n_hops = 0 then b.dest else env.peers i
    let out := buildGo b env fuel (i + 1) (simInit b.tunnel_id peer (env.initHs i))
    { out with trace := .attemptInit peer :: out.trace }
  | fuel + 1, i, some st =>
    if st.tunnel.session_keys.length - 1 < b.n_hops then
      let peer := env.peers i
      let res := simExtend st peer (env.extendHs i) (env.truncHs i)
      if extendResultBroken res.1 then
        let out := buildGo b env fuel (i + 1) none
        { out with trace := .attemptExtend peer :: .teardown :: out.trace }
      else
        let out := buildGo b env fuel (i + 1) (some res.2)
        { out with trace := .attemptExtend peer :: out.trace }
    else
      { result := .ok st, leftover := some st, trace := [] }

/-- `TunnelBuilder::build`. -/
def build (b : TunnelBuilder) (env : BuildEnv) : BuildOutcome :=
  buildGo b env MAX_PEER_FAILURES 0 none

/-- The `(Request::Switchover, State::Ready)` arm of
`TunnelHandler::handle_request`: take the tunnel deposited in `next_tunnel`
(error if the cell is empty) and `mem::swap` it with the current tunnel. -/
def switchover (next_tunnel : Option Tunnel) : Except Unit Tunnel :=
  match next_tunnel with
  | none => .error ()
  | some nt => .ok nt

/-- Iterated switchover: each element of `envs` is the environment of one
background `builder.build()` run (`TunnelHandler::spawn_next_tunnel_task`)
whose result is deposited into `next_tunnel` and then installed by the next
`(Switchover, Ready)` request; `none` when a build fails. -/
def switchoverRun (b : TunnelBuilder) (t : Tunnel) :
    List BuildEnv → Option Tunnel
  | [] => some t
  | env :: envs =>
    match (build b env).result with
    | .ok st =>
      match switchover (some st.tunnel) with
      | .ok nt => switchoverRun b nt envs
      | .error _ => none
    | .error _ => none

/-!
Theorems settling the claims.
-/

/-- C7: the conversion of socket errors into tunnel errors maps a peer
protocol violation (`OnionSocketError::Peer`) to `TunnelError::Incomplete`,
and every other socket error — I/O failure and handshake timeout — to
`TunnelError::Broken` carrying that error. -/
theorem socket_error_conversion :
    tunnelErrorOfSocketError .Peer = .Incomplete ∧
    tunnelErrorOfSocketError .Io = .Broken (some .Io) ∧
    tunnelErrorOfSocketError .Timeout = .Broken (some .Timeout) :=
  ⟨rfl, rfl, rfl⟩

/-- C5: `Tunnel::truncate(n)` returns `Incomplete` and leaves `session_keys`
unchanged whenever `n ≥ len(session_keys)`; when `n < len(session_keys)` and
the `TRUNCATE` exchange succeeds, exactly the first `n` entries of
`session_keys` are removed. -/
theorem truncate_spec (t : Tunnel) (n : Nat) (sock : Except OnionSocketError Unit) :
    (t.session_keys.length ≤ n → t.truncate n sock = (.error .Incomplete, t)) ∧
    (n < t.session_keys.length → sock = .ok () →
      t.truncate n sock = (.ok (), { t with session_keys := t.session_keys.drop n })) := by
  constructor
  · intro h
    simp [Tunnel.truncate, h]
  · intro h hs
    subst hs
    simp [Tunnel.truncate, Nat.not_le.mpr h]

/-- Witness for C5 at a concrete tunnel: a truncate by 5 on a 2-key tunnel
is rejected unchanged, a truncate by 1 removes exactly the first key. -/
theorem truncate_spec_witness :
    Tunnel.truncate ⟨3, [1, 2]⟩ 5 (.ok ()) = (.error .Incomplete, ⟨3, [1, 2]⟩) ∧
    Tunnel.truncate ⟨3, [1, 2]⟩ 1 (.ok ()) = (.ok (), ⟨3, [2]⟩) := by
  constructor
  · exact (truncate_spec ⟨3, [1, 2]⟩ 5 (.ok ())).1 (by decide)
  · have h := (truncate_spec ⟨3, [1, 2]⟩ 1 (.ok ())).2 (by decide) rfl
    simpa using h

/-- C6: if key derivation (or signature verification) fails during
`Tunnel::extend`, the tunnel issues `truncate(0)` and `extend` returns
`Incomplete` with the key list unchanged; if that rollback truncate itself
fails, `extend` returns `Broken`; a socket failure during the exchange makes
`extend` return `Broken`. -/
theorem extend_failure_handling (t : Tunnel) (e : OnionSocketError)
    (ts : Except OnionSocketError Unit) :
    (t.session_keys ≠ [] → t.extend (.ok none) (.ok ()) = (.error .Incomplete, t)) ∧
    (∀ e', t.extend (.ok none) (.error e') = (.error (.Broken none), t)) ∧
    (e ≠ .Peer → t.extend (.error e) ts = (.error (.Broken (some e)), t)) := by
  refine ⟨?_, ?_, ?_⟩
  · intro h
    have hlen : ¬ t.session_keys.length ≤ 0 := by
      simpa [Nat.pos_iff_ne_zero, List.length_eq_zero] using h
    simp [Tunnel.extend, Tunnel.truncate, hlen]
  · intro e'
    by_cases hlen : t.session_keys.length ≤ 0 <;>
      simp [Tunnel.extend, Tunnel.truncate, hlen]
  · intro h
    cases e with
    | Peer => exact absurd rfl h
    | Io => simp [Tunnel.extend, tunnelErrorOfSocketError]
    | Timeout => simp [Tunnel.extend, tunnelErrorOfSocketError]

/-- Witness for C6 at a concrete one-key tunnel. -/
theorem extend_failure_handling_witness :
    Tunnel.extend ⟨1, [4]⟩ (.ok none) (.ok ()) = (.error .Incomplete, ⟨1, [4]⟩) ∧
    Tunnel.extend ⟨1, [4]⟩ (.ok none) (.error .Timeout) = (.error (.Broken none), ⟨1, [4]⟩) ∧
    Tunnel.extend ⟨1, [4]⟩ (.error .Io) (.ok ()) = (.error (.Broken (some .Io)), ⟨1, [4]⟩) :=
  ⟨(extend_failure_handling ⟨1, [4]⟩ .Io (.ok ())).1 (by decide),
   (extend_failure_handling ⟨1, [4]⟩ .Io (.ok ())).2.1 .Timeout,
   (extend_failure_handling ⟨1, [4]⟩ .Io (.ok ())).2.2 (by decide)⟩

/-- C8: every tunnel operation preserves `len(session_keys) ≥ 1`: `init`
establishes exactly one key, `extend` only inserts, and `truncate` rejects
(with `Incomplete`, without modification) any `n` that would leave fewer
than one key. -/
theorem session_keys_invariant (id : TunnelId) (hs : Option SessionKey) (t : Tunnel)
    (ex : Except OnionSocketError (Option SessionKey))
    (ts sock : Except OnionSocketError Unit) (n : Nat) :
    (∀ t', Tunnel.init id hs = some t' → t'.session_keys.length = 1) ∧
    (1 ≤ t.session_keys.length → 1 ≤ (t.extend ex ts).2.session_keys.length) ∧
    (1 ≤ t.session_keys.length → 1 ≤ (t.truncate n sock).2.session_keys.length) ∧
    (t.session_keys.length ≤ n → (t.truncate n sock).2 = t) := by
  refine ⟨?_, ?_, ?_, ?_⟩
  · intro t' h
    cases hs with
    | none => simp [Tunnel.init] at h
    | some s => simp [Tunnel.init] at h; simp [← h]
  · intro h
    match ex with
    | .error e => simpa [Tunnel.extend] using h
    | .ok (some s) => simp [Tunnel.extend]
    | .ok none =>
      have hlen : ¬ t.session_keys.length ≤ 0 := by omega
      match ts with
      | .ok _ => simpa [Tunnel.extend, Tunnel.truncate, hlen] using h
      | .error e' => simpa [Tunnel.extend, Tunnel.truncate, hlen] using h
  · intro h
    by_cases hn : t.session_keys.length ≤ n
    · simpa [Tunnel.truncate, hn] using h
    · match sock with
      | .ok _ => simp [Tunnel.truncate, hn]; omega
      | .error e' => simpa [Tunnel.truncate, hn] using h
  · intro h
    simp [Tunnel.truncate, h]

/-- Witness for C8 at concrete inputs. -/
theorem session_keys_invariant_witness :
    (∀ t', Tunnel.init 9 (some 4) = some t' → t'.session_keys.length = 1) ∧
    1 ≤ (Tunnel.extend ⟨9, [4]⟩ (.ok (some 6)) (.ok ())).2.session_keys.length ∧
    1 ≤ (Tunnel.truncate ⟨9, [5, 4]⟩ 1 (.ok ())).2.session_keys.length ∧
    (Tunnel.truncate ⟨9, [4]⟩ 3 (.ok ())).2 = ⟨9, [4]⟩ :=
  ⟨(session_keys_invariant 9 (some 4) ⟨9, [4]⟩ (.ok (some 6)) (.ok ()) (.ok ()) 1).1,
   (session_keys_invariant 9 (some 4) ⟨9, [4]⟩ (.ok (some 6)) (.ok ()) (.ok ()) 1).2.1 (by decide),
   (session_keys_invariant 9 (some 4) ⟨9, [5, 4]⟩ (.ok (some 6)) (.ok ()) (.ok ()) 1).2.2.1 (by decide),
   (session_keys_invariant 9 (some 4) ⟨9, [4]⟩ (.ok (some 6)) (.ok ()) (.ok ()) 3).2.2.2 (by decide)⟩

/-- C10: the `TunnelHandler` state only advances in the order
Building → Ready → Destroying → Destroyed: no request transition of
`handle_request` lowers the rank, the handler never re-enters `Building`,
no request is processed in `Destroyed`, and in `Destroyed` the `handle`
loop halts. -/
theorem handler_state_monotone :
    (∀ r s s', stepRequest r s = some s' →
      State.rank s ≤ State.rank s' ∧ (s' = State.Building → s = State.Building)) ∧
    (∀ r, stepRequest r .Destroyed = none) ∧
    handleDispatch .Destroyed = .halt := by
  refine ⟨?_, ?_, rfl⟩
  · intro r s s' h
    cases r <;> cases s <;> simp [stepRequest] at h <;> simp [← h, State.rank]
  · intro r
    cases r <;> rfl

/-- Witness for C10: the Building → Ready transition on `Switchover`
advances the rank and does not re-enter `Building`. -/
theorem handler_state_monotone_witness :
    State.rank .Building ≤ State.rank .Ready ∧
    (State.Ready = State.Building → State.Building = State.Building) :=
  handler_state_monotone.1 .Switchover .Building .Ready rfl

/-- C3 (failing input): on an inbound `OPAQUE` the handler decrypts with the
session keys in reverse list order and emits `Event::Data` for an inner
`DATA`; but an inner `END` reaches the `todo!()` in
`handle_tunnel_message` instead of emitting `Event::End` and tearing down,
and an invalid message / failed digest reaches the other `todo!()` instead
of tearing down the tunnel. -/
theorem inbound_end_hits_todo :
    handle_tunnel_message ⟨7, [11, 10]⟩ (.ok ⟨[10, 11], some (.Data 7 [1, 2])⟩) =
      .emitData 7 [1, 2] ∧
    handle_tunnel_message ⟨7, [11, 10]⟩ (.ok ⟨[10, 11], some (.End 7)⟩) = .panicTodoEnd ∧
    handle_tunnel_message ⟨7, [11, 10]⟩ (.ok ⟨[10, 11], none⟩) = .panicTodoInvalid ∧
    handle_tunnel_message ⟨7, [11, 10]⟩ (.ok ⟨[10, 11], some (.End 7)⟩) ≠ .emitEnd 7 ∧
    handle_tunnel_message ⟨7, [11, 10]⟩ (.ok ⟨[10, 11], none⟩) ≠ .teardownTunnel := by
  decide

/-- C1 (counterexample): on the reachable two-hop tunnel obtained by
`init` to peer 0 (key 10) followed by a successful `extend` to peer 1
(key 11), `session_keys[0]` is the key of the terminal hop, not of the
first hop; the last element is the first-hop key, not the terminal key;
and the handler's inbound decryption applies the key list in reverse, not
forward, order. -/
theorem session_key_order_cex :
    simInit 5 0 (some 10) = some ⟨⟨5, [10]⟩, [(0, 10)]⟩ ∧
    (simExtend ⟨⟨5, [10]⟩, [(0, 10)]⟩ 1 (.ok (some 11)) (.ok ())).2 =
      ⟨⟨5, [11, 10]⟩, [(0, 10), (1, 11)]⟩ ∧
    (simExtend ⟨⟨5, [10]⟩, [(0, 10)]⟩ 1 (.ok (some 11)) (.ok ())).2.tunnel.session_keys.head? ≠
      (((simExtend ⟨⟨5, [10]⟩, [(0, 10)]⟩ 1 (.ok (some 11)) (.ok ())).2.hops.map
        Prod.snd).head?) ∧
    (simExtend ⟨⟨5, [10]⟩, [(0, 10)]⟩ 1 (.ok (some 11)) (.ok ())).2.tunnel.session_keys.getLast? ≠
      (((simExtend ⟨⟨5, [10]⟩, [(0, 10)]⟩ 1 (.ok (some 11)) (.ok ())).2.hops.map
        Prod.snd).getLast?) ∧
    handlerDecryptKeys ⟨5, [11, 10]⟩ ≠ [11, 10] := by
  decide

/-- C1 (amended): the session-key list is ordered innermost-first —
`session_keys` is the reverse of the path-ordered hop-key list, so
`session_keys[0]` is the key of the current terminal hop and the last
element is the first-hop key — and this correspondence is maintained by
`init`, `extend` and `truncate`; inbound decryption therefore applies the
list in reverse order, which is the physical hop order, first hop
(outermost layer) first. -/
theorem session_keys_innermost_first :
    (∀ id p hs st, simInit id p hs = some st → keysMatchPath st) ∧
    (∀ st p ex ts, keysMatchPath st → keysMatchPath (simExtend st p ex ts).2) ∧
    (∀ st n sock, keysMatchPath st → keysMatchPath (simTruncate st n sock).2) ∧
    (∀ st, keysMatchPath st → handlerDecryptKeys st.tunnel = st.hops.map Prod.snd) := by
  refine ⟨?_, ?_, ?_, ?_⟩
  · intro id p hs st h
    cases hs with
    | none => simp [simInit] at h
    | some s =>
      simp [simInit] at h
      simp [← h, keysMatchPath]
  · intro st p ex ts h
    match ex with
    | .error e => simpa [simExtend, Tunnel.extend, keysMatchPath] using h
    | .ok (some s) =>
      simp only [simExtend, Tunnel.extend, keysMatchPath] at h ⊢
      simp [h]
    | .ok none =>
      by_cases hlen : st.tunnel.session_keys.length ≤ 0 <;>
        match ts with
        | .ok _ => simpa [simExtend, Tunnel.extend, Tunnel.truncate, hlen, keysMatchPath] using h
        | .error e' => simpa [simExtend, Tunnel.extend, Tunnel.truncate, hlen, keysMatchPath] using h
  · intro st n sock h
    by_cases hn : st.tunnel.session_keys.length ≤ n
    · simpa [simTruncate, Tunnel.truncate, hn, keysMatchPath] using h
    · match sock with
      | .error e' => simpa [simTruncate, Tunnel.truncate, hn, keysMatchPath] using h
      | .ok _ =>
        simp only [simTruncate, Tunnel.truncate, hn, if_neg, keysMatchPath] at h ⊢
        simp [h]
  · intro st h
    simp [keysMatchPath] at h
    simp [handlerDecryptKeys, h]

/-- Witness for C1 (amended) on the concrete two-hop tunnel: the
correspondence holds after `init` and after `extend`, and the handler
decrypts in physical hop order. -/
theorem session_keys_innermost_first_witness :
    keysMatchPath ⟨⟨5, [10]⟩, [(0, 10)]⟩ ∧
    keysMatchPath (simExtend ⟨⟨5, [10]⟩, [(0, 10)]⟩ 1 (.ok (some 11)) (.ok ())).2 ∧
    handlerDecryptKeys (⟨⟨5, [11, 10]⟩, [(0, 10), (1, 11)]⟩ : SimTunnel).tunnel = [10, 11] := by
  refine ⟨?_, ?_, ?_⟩
  · exact session_keys_innermost_first.1 5 0 (some 10) ⟨⟨5, [10]⟩, [(0, 10)]⟩ rfl
  · exact session_keys_innermost_first.2.1 ⟨⟨5, [10]⟩, [(0, 10)]⟩ 1 (.ok (some 11)) (.ok ())
      (session_keys_innermost_first.1 5 0 (some 10) ⟨⟨5, [10]⟩, [(0, 10)]⟩ rfl)
  · have h := session_keys_innermost_first.2.2.2 ⟨⟨5, [11, 10]⟩, [(0, 10), (1, 11)]⟩ rfl
    simpa using h

/-- C2 (failing input): with `n_hops = 1`, `dest = 99`, the peer provider
yielding peers 0, 1, 2, … and every handshake succeeding,
`TunnelBuilder::build` returns the tunnel whose physical path is the two
sampled peers 0 and 1 — it never extends to `dest`, and `dest` appears
nowhere on the path, contradicting the function's own documentation
("the final hop at index `n` will be `final_peer`"). -/
theorem build_ignores_dest :
    (build ⟨7, 99, 1⟩
        ⟨fun i => i, fun i => some (10 + i), fun i => .ok (some (100 + i)),
          fun _ => .ok ()⟩).result =
      .ok ⟨⟨7, [101, 10]⟩, [(0, 10), (1, 101)]⟩ ∧
    ((⟨⟨7, [101, 10]⟩, [(0, 10), (1, 101)]⟩ : SimTunnel).hops.map Prod.fst).getLast? = some 1 ∧
    (99 : Peer) ∉ (⟨⟨7, [101, 10]⟩, [(0, 10), (1, 101)]⟩ : SimTunnel).hops.map Prod.fst := by
  exact ⟨rfl, rfl, by decide⟩

/-- Each recursive step of `buildGo` performs at most one handshake action
(one `init` or one `extend`), so a run with `fuel` remaining iterations
performs at most `fuel` handshake rounds. -/
theorem buildGo_handshake_bound (b : TunnelBuilder) (env : BuildEnv) :
    ∀ fuel i cur,
      ((buildGo b env fuel i cur).trace.filter (·.isHandshake)).length ≤ fuel := by
  intro fuel
  induction fuel with
  | zero =>
    intro i cur
    simp [buildGo]
  | succ f ih =>
    intro i cur
    cases cur with
    | none =>
      simp only [buildGo, List.filter, BuildAction.isHandshake, List.length_cons]
      exact Nat.succ_le_succ (ih (i + 1) _)
    | some st =>
      by_cases hlt : st.tunnel.session_keys.length - 1 < b.n_hops
      · by_cases hbr :
          extendResultBroken
            (simExtend st (env.peers i) (env.extendHs i) (env.truncHs i)).1 = true
        · simp only [buildGo, hlt, if_true, hbr,
            List.filter, BuildAction.isHandshake, List.length_cons]
          exact Nat.succ_le_succ (ih (i + 1) none)
        · simp only [buildGo, hlt, if_true, hbr, if_false,
            List.filter, BuildAction.isHandshake, List.length_cons]
          exact Nat.succ_le_succ (ih (i + 1) _)
      · simp [buildGo, hlt]

/-- C4 (amended): `TunnelBuilder::build` runs at most `MAX_PEER_FAILURES`
(10) loop iterations, each issuing at most one handshake round, and when
the iteration budget is exhausted it returns the build-failure error with
the partial tunnel untouched — no teardown is issued on the exhaustion
path (the partial tunnel is merely dropped). -/
theorem build_retry_budget (b : TunnelBuilder) (env : BuildEnv) :
    ((build b env).trace.filter (·.isHandshake)).length ≤ MAX_PEER_FAILURES ∧
    (∀ i cur, buildGo b env 0 i cur =
      { result := .error (), leftover := cur, trace := [] }) :=
  ⟨buildGo_handshake_bound b env MAX_PEER_FAILURES 0 none, fun _ _ => rfl⟩

/-- C4 (counterexample to teardown-on-exhaustion): with every `extend`
exchange failing with a peer protocol violation (`Incomplete`), the build
budget is exhausted after 10 handshake rounds, `build` returns the failure
error — and the surviving one-hop partial tunnel is left untouched: the
trace contains no teardown action. -/
theorem build_exhaustion_no_teardown_cex :
    (build ⟨5, 42, 3⟩
        ⟨fun i => i, fun _ => some 7, fun _ => .error .Peer, fun _ => .ok ()⟩).result =
      .error () ∧
    (build ⟨5, 42, 3⟩
        ⟨fun i => i, fun _ => some 7, fun _ => .error .Peer, fun _ => .ok ()⟩).leftover =
      some ⟨⟨5, [7]⟩, [(0, 7)]⟩ ∧
    ((build ⟨5, 42, 3⟩
        ⟨fun i => i, fun _ => some 7, fun _ => .error .Peer, fun _ => .ok ()⟩).trace.filter
          (·.isHandshake)).length = 10 ∧
    (build ⟨5, 42, 3⟩
        ⟨fun i => i, fun _ => some 7, fun _ => .error .Peer, fun _ => .ok ()⟩).trace.count
        .teardown = 0 :=
  ⟨rfl, rfl, rfl, rfl⟩

/-- `Tunnel::extend` never changes the tunnel id. -/
theorem extend_preserves_id (t : Tunnel) (ex : Except OnionSocketError (Option SessionKey))
    (ts : Except OnionSocketError Unit) : (t.extend ex ts).2.id = t.id := by
  match ex with
  | .error e => rfl
  | .ok (some s) => rfl
  | .ok none =>
    by_cases hlen : t.session_keys.length ≤ 0
    · simp [Tunnel.extend, Tunnel.truncate, hlen]
    · match ts with
      | .ok _ => simp [Tunnel.extend, Tunnel.truncate, hlen]
      | .error e' => simp [Tunnel.extend, Tunnel.truncate, hlen]

/-- `simInit` gives the new tunnel exactly the requested id. -/
theorem simInit_id (id : TunnelId) (p : Peer) (hs : Option SessionKey) (st : SimTunnel)
    (h : simInit id p hs = some st) : st.tunnel.id = id := by
  cases hs with
  | none => simp [simInit] at h
  | some s =>
    simp [simInit] at h
    simp [← h]

/-- `simExtend` never changes the tunnel id. -/
theorem simExtend_preserves_id (st : SimTunnel) (p : Peer)
    (ex : Except OnionSocketError (Option SessionKey))
    (ts : Except OnionSocketError Unit) :
    (simExtend st p ex ts).2.tunnel.id = st.tunnel.id := by
  match ex with
  | .error e => exact extend_preserves_id st.tunnel (.error e) ts
  | .ok (some s) => exact extend_preserves_id st.tunnel (.ok (some s)) ts
  | .ok none => exact extend_preserves_id st.tunnel (.ok none) ts

/-- Every tunnel a `buildGo` run returns carries the builder's
`tunnel_id`, provided the partial tunnel it starts from does. -/
theorem buildGo_id (b : TunnelBuilder) (env : BuildEnv) :
    ∀ fuel i cur st',
      (∀ st, cur = some st → st.tunnel.id = b.tunnel_id) →
      (buildGo b env fuel i cur).result = .ok st' → st'.tunnel.id = b.tunnel_id := by
  intro fuel
  induction fuel with
  | zero =>
    intro i cur st' hcur hres
    simp [buildGo] at hres
  | succ f ih =>
    intro i cur st' hcur hres
    cases cur with
    | none =>
      simp only [buildGo] at hres
      refine ih (i + 1) _ st' ?_ hres
      intro st h
      exact simInit_id b.tunnel_id _ (env.initHs i) st h
    | some st =>
      by_cases hlt : st.tunnel.session_keys.length - 1 < b.n_hops
      · by_cases hbr :
          extendResultBroken
            (simExtend st (env.peers i) (env.extendHs i) (env.truncHs i)).1 = true
        · simp only [buildGo, hlt, if_true, hbr] at hres
          exact ih (i + 1) none st' (by intro s h; cases h) hres
        · simp only [buildGo, hlt, if_true, hbr, if_false] at hres
          refine ih (i + 1) _ st' ?_ hres
          intro s h
          have hs : s = (simExtend st (env.peers i) (env.extendHs i) (env.truncHs i)).2 :=
            Option.some.inj h.symm
          rw [hs, simExtend_preserves_id]
          exact hcur st rfl
      · simp only [buildGo, hlt, if_false] at hres
        have hst : st = st' := by
          simpa using hres
        rw [← hst]
        exact hcur st rfl

/-- C9: every tunnel produced by this handler's builder carries the
builder's fixed `tunnel_id`; hence each `(Switchover, Ready)` swap installs
a replacement tunnel with the same `TunnelId` as the tunnel it replaces,
and across arbitrarily many switchovers the application-visible tunnel id
never changes (given that the handler's first tunnel was built with that
same id, which is how the handler is constructed). -/
theorem switchover_preserves_tunnel_id (b : TunnelBuilder) (t t' : Tunnel)
    (envs : List BuildEnv) :
    (∀ env st, (build b env).result = .ok st → st.tunnel.id = b.tunnel_id) ∧
    (t.id = b.tunnel_id → switchoverRun b t envs = some t' → t'.id = t.id) := by
  constructor
  · intro env st h
    exact buildGo_id b env MAX_PEER_FAILURES 0 none st (by intro s hs; cases hs) h
  · induction envs generalizing t with
    | nil =>
      intro hid hrun
      simp [switchoverRun] at hrun
      rw [← hrun]
    | cons env envs ih =>
      intro hid hrun
      simp only [switchoverRun] at hrun
      cases hb : (build b env).result with
      | error e =>
        rw [hb] at hrun
        cases hrun
      | ok st =>
        rw [hb] at hrun
        simp only [switchover] at hrun
        have hstid : st.tunnel.id = b.tunnel_id :=
          buildGo_id b env MAX_PEER_FAILURES 0 none st (by intro s hs; cases hs) hb
        have := ih st.tunnel (by rw [hstid]) hrun
        rw [this, hstid, hid]

/-- Witness for C9: a concrete single-hop builder whose build succeeds; one
switchover installs the freshly built tunnel and the id is unchanged. -/
theorem switchover_preserves_tunnel_id_witness :
    switchoverRun ⟨7, 99, 0⟩ ⟨7, [1]⟩
        [⟨fun i => i, fun _ => some 3, fun _ => .ok (some 0), fun _ => .ok ()⟩] =
      some ⟨7, [3]⟩ ∧
    (⟨7, [3]⟩ : Tunnel).id = (⟨7, [1]⟩ : Tunnel).id :=
  ⟨rfl,
   (switchover_preserves_tunnel_id ⟨7, 99, 0⟩ ⟨7, [1]⟩ ⟨7, [3]⟩
      [⟨fun i => i, fun _ => some 3, fun _ => .ok (some 0), fun _ => .ok ()⟩]).2 rfl rfl⟩

end Onion
